import Mathlib

/-!
Verification of the parameter-sweep core of `lsdyna_parametric`.

The development shallowly embeds the three core modules:
* `variables.py` — the `VariableField` value object (`generate_values`,
  `to_config_dict`);
* `batch.py` — `estimate_batch_size` and `generate_batch` over
  `itertools.product`;
* `io_utils.py` — the pure text-building part of `write_case_config_toml`
  (`_format_toml_value`, sorting, line assembly, `rstrip`, final newline).

Modelling conventions:
* Python `float` values are modelled as exact rationals (`ℚ`); the float
  literal `1e-12` is modelled as the rational `1/10^12`.
* Python `dict` values are modelled as association lists that preserve
  insertion order; `dict.get` is first-match lookup (dict keys are unique,
  so first-match lookup agrees with dict lookup).
* Python functions that cannot raise are total Lean functions.
-/

/-- The boundary tolerance `1e-12` from `VariableField.generate_values`,
modelled as the exact rational `1/10^12`. -/
def rangeEps : ℚ := 1 / 10 ^ 12

/-- Python's banker's rounding (`round` rounds halves to the nearest even
integer). -/
def roundHalfEven (q : ℚ) : ℤ :=
  if q - ⌊q⌋ < 1 / 2 then ⌊q⌋
  else if q - ⌊q⌋ > 1 / 2 then ⌊q⌋ + 1
  else if ⌊q⌋ % 2 = 0 then ⌊q⌋ else ⌊q⌋ + 1

/-- `round(x, 10)` from `generate_values`: round to 10 decimal digits. -/
def pyRound10 (q : ℚ) : ℚ := roundHalfEven (q * 10 ^ 10) / 10 ^ 10

/-- The `VariableField` dataclass of `variables.py`. -/
structure VariableField where
  enabled : Bool := false
  mode : String := "range"
  min_value : Option ℚ := none
  max_value : Option ℚ := none
  step : ℚ := 1
  values : List ℚ := []
  deriving DecidableEq

/-- The `while current <= max_v + 1e-12` loop of `generate_values`.
The Python loop appends first and breaks only once `len(out) > 1_000_000`,
so the loop body runs at most 1_000_001 times; `fuel` counts the remaining
permitted appends, started at 1_000_001, which models the break exactly. -/
def rangeLoop (max_v stepv : ℚ) : Nat → ℚ → List ℚ
  | 0, _ => []
  | fuel + 1, current =>
    if current ≤ max_v + rangeEps then
      pyRound10 current :: rangeLoop max_v stepv fuel (current + stepv)
    else []

/-- `VariableField.generate_values` from `variables.py`. -/
def VariableField.generate_values (f : VariableField) : List ℚ :=
  if !f.enabled then []
  else if f.mode = "discrete" then f.values
  else
    match f.min_value, f.max_value with
    | none, _ => []
    | some _, none => []
    | some mn, some mx =>
      if f.step ≤ 0 then []
      else rangeLoop mx f.step 1000001 mn

/-- The value types that appear in a config dict: strings, booleans,
floats and lists of floats (the `object` values of `to_config_dict`). -/
inductive ConfigValue where
  | strVal : String → ConfigValue
  | boolVal : Bool → ConfigValue
  | numVal : ℚ → ConfigValue
  | listVal : List ℚ → ConfigValue
  deriving DecidableEq

/-- `VariableField.to_config_dict` from `variables.py`; the Python dict is
modelled as an association list in insertion order. -/
def VariableField.to_config_dict (f : VariableField) : List (String × ConfigValue) :=
  [("enabled", ConfigValue.boolVal f.enabled), ("mode", ConfigValue.strVal f.mode)]
  ++ (if f.mode = "range" then
        (match f.min_value with
         | some v => [("min_value", ConfigValue.numVal v)]
         | none => [])
        ++ (match f.max_value with
            | some v => [("max_value", ConfigValue.numVal v)]
            | none => [])
        ++ [("step", ConfigValue.numVal f.step)]
      else [("values", ConfigValue.listVal f.values)])

/-- The `BatchItem` dataclass of `batch.py`; `params` is the Python dict in
insertion order. -/
structure BatchItem where
  index : Nat
  params : List (String × ℚ)
  deriving DecidableEq

/-- `estimate_batch_size` from `batch.py`: fold over `base_params` in
insertion order, multiplying in the value count of each enabled variable. -/
def estimate_batch_size (base_params : List (String × ℚ))
    (vars : List (String × VariableField)) : Nat :=
  base_params.foldl (fun total nv =>
    match vars.lookup nv.1 with
    | some var => if var.enabled then total * var.generate_values.length else total
    | none => total) 1

/-- The `value_lists` built inside `generate_batch`: one axis per base
parameter, in `base_params` insertion order — the variable's generated
values when an enabled field exists, else the single fixed base value. -/
def value_lists (base_params : List (String × ℚ))
    (vars : List (String × VariableField)) : List (List ℚ) :=
  base_params.map (fun nv =>
    match vars.lookup nv.1 with
    | some var => if var.enabled then var.generate_values else [nv.2]
    | none => [nv.2])

/-- `itertools.product(*value_lists)`: the full cartesian product, with the
last list varying fastest. -/
def pyProduct : List (List ℚ) → List (List ℚ)
  | [] => [[]]
  | axis :: rest => axis.flatMap (fun x => (pyProduct rest).map (fun c => x :: c))

/-- `generate_batch` from `batch.py`: enumerate the cartesian product with
1-based indices and zip each combination back with the parameter names. -/
def generate_batch (base_params : List (String × ℚ))
    (vars : List (String × VariableField)) : List BatchItem :=
  let names := base_params.map Prod.fst
  (pyProduct (value_lists base_params vars)).enum.map
    (fun ic => { index := ic.1 + 1, params := names.zip ic.2 })

/-- Product of the axis lengths: the size `estimate_batch_size` computes. -/
def axesSize (axes : List (List ℚ)) : Nat := (axes.map List.length).prod

theorem axesSize_nil : axesSize [] = 1 := rfl

theorem axesSize_cons (a : List ℚ) (rest : List (List ℚ)) :
    axesSize (a :: rest) = a.length * axesSize rest := by
  simp [axesSize]

theorem pyProduct_length (L : List (List ℚ)) : (pyProduct L).length = axesSize L := by
  induction L with
  | nil => rfl
  | cons a rest ih =>
    simp only [pyProduct, List.length_flatMap, axesSize_cons, ← ih]
    induction a with
    | nil => simp
    | cons x a' iha =>
      simp_all [Nat.succ_mul, Nat.add_comm]

theorem estimate_aux (vars : List (String × VariableField)) :
    ∀ (l : List (String × ℚ)) (a : Nat),
      List.foldl (fun total nv =>
        match vars.lookup nv.1 with
        | some var => if var.enabled then total * var.generate_values.length else total
        | none => total) a l
      = a * axesSize (value_lists l vars) := by
  intro l
  induction l with
  | nil => intro a; simp [value_lists, axesSize]
  | cons nv l ih =>
    intro a
    simp only [List.foldl_cons, value_lists, List.map_cons, axesSize_cons]
    rcases h : vars.lookup nv.1 with _ | var
    · have := ih a
      simp only [value_lists] at this
      simp [this, Nat.mul_assoc]
    · rcases he : var.enabled with _ | _
      · have := ih a
        simp only [value_lists] at this
        simp [he, this, Nat.mul_assoc]
      · have := ih (a * var.generate_values.length)
        simp only [value_lists] at this
        simp [he, this, Nat.mul_assoc]

/-- C1. For every base_params mapping and every variables mapping, the batch
returned by `generate_batch` has exactly `estimate_batch_size` items. -/
theorem C1_generate_batch_length_eq_estimate
    (base_params : List (String × ℚ)) (vars : List (String × VariableField)) :
    (generate_batch base_params vars).length = estimate_batch_size base_params vars := by
  unfold generate_batch estimate_batch_size
  rw [estimate_aux vars base_params 1, Nat.one_mul]
  simp [List.enum_length, pyProduct_length]

/-- Positional (odometer) description of a cartesian-product combination:
from the spec's ordering contract, the first axis varies slowest and the
last axis varies fastest, so the combination at position `i` picks index
`i / axesSize rest` from the head axis and recurses with `i % axesSize rest`. -/
def specCombo : List (List ℚ) → Nat → List ℚ
  | [], _ => []
  | axis :: rest, i => axis.getD (i / axesSize rest) 0 :: specCombo rest (i % axesSize rest)

theorem pyProduct_eq_specCombo (L : List (List ℚ)) :
    pyProduct L = (List.range (axesSize L)).map (specCombo L) := by
  induction L with
  | nil =>
    simp only [pyProduct, axesSize_nil]
    rfl
  | cons a rest ih =>
    rcases Nat.eq_zero_or_pos (axesSize rest) with hw | hw
    · have hrest : pyProduct rest = [] := by
        rw [ih, hw]
        rfl
      simp [pyProduct, hrest, axesSize_cons, hw]
    · induction a with
      | nil => simp [pyProduct, axesSize_cons]
      | cons x a' iha =>
        have hsz : (x :: a').length * axesSize rest
            = axesSize rest + a'.length * axesSize rest := by
          simp [List.length_cons, Nat.succ_mul, Nat.add_comm]
        simp only [pyProduct, List.flatMap_cons, axesSize_cons, hsz, List.range_add,
          List.map_append, List.map_map]
        have block1 : (List.range (axesSize rest)).map (specCombo ((x :: a') :: rest))
            = (pyProduct rest).map (fun c => x :: c) := by
          rw [ih, List.map_map]
          apply List.map_congr_left
          intro i hi
          rw [List.mem_range] at hi
          simp [specCombo, Nat.div_eq_of_lt hi, Nat.mod_eq_of_lt hi]
        have block2 : (List.range (a'.length * axesSize rest)).map
              ((specCombo ((x :: a') :: rest)) ∘ (fun i => axesSize rest + i))
            = a'.flatMap (fun y => (pyProduct rest).map (fun c => y :: c)) := by
          have hprev := iha
          simp only [pyProduct, axesSize_cons] at hprev
          rw [hprev]
          apply List.map_congr_left
          intro i hi
          simp only [Function.comp_apply, specCombo]
          rw [Nat.add_comm (axesSize rest) i, Nat.add_div_right i hw,
            Nat.add_mod_right i (axesSize rest)]
          simp
        rw [block1, block2]

theorem generate_batch_map_params
    (base_params : List (String × ℚ)) (vars : List (String × VariableField)) :
    (generate_batch base_params vars).map BatchItem.params
      = (pyProduct (value_lists base_params vars)).map
          (fun c => (base_params.map Prod.fst).zip c) := by
  unfold generate_batch
  rw [List.map_map]
  conv_rhs => rw [← List.enum_map_snd (pyProduct (value_lists base_params vars)),
    List.map_map]
  rfl

theorem generate_batch_map_index
    (base_params : List (String × ℚ)) (vars : List (String × VariableField)) :
    (generate_batch base_params vars).map BatchItem.index
      = (List.range (axesSize (value_lists base_params vars))).map (fun i => i + 1) := by
  unfold generate_batch
  rw [List.map_map]
  conv_rhs => rw [← pyProduct_length,
    ← List.enum_map_fst (pyProduct (value_lists base_params vars)), List.map_map]
  rfl

/-- C2. `generate_batch` is the full cartesian product over the per-name
axes (`value_lists`), enumerated with the last axis varying fastest:
indices are exactly `1, 2, …, N` in order, and the item at position `i`
(0-based) carries the parameter names of `base_params`, in insertion order,
zipped with the odometer combination `specCombo (value_lists …) i`. -/
theorem C2_generate_batch_product_order
    (base_params : List (String × ℚ)) (vars : List (String × VariableField)) :
    (generate_batch base_params vars).map BatchItem.index
        = List.range' 1 (generate_batch base_params vars).length
    ∧ (generate_batch base_params vars).map BatchItem.params
        = (List.range (generate_batch base_params vars).length).map
            (fun i => (base_params.map Prod.fst).zip
              (specCombo (value_lists base_params vars) i)) := by
  have hlen : (generate_batch base_params vars).length
      = axesSize (value_lists base_params vars) := by
    unfold generate_batch
    simp [List.enum_length, pyProduct_length]
  constructor
  · rw [generate_batch_map_index, hlen, List.range'_eq_map_range]
    apply List.map_congr_left
    intro i _
    exact Nat.add_comm i 1
  · rw [generate_batch_map_params, hlen, pyProduct_eq_specCombo, List.map_map]
    rfl

theorem pyProduct_mem_length (L : List (List ℚ)) (c : List ℚ)
    (hc : c ∈ pyProduct L) : c.length = L.length := by
  induction L generalizing c with
  | nil =>
    simp only [pyProduct, List.mem_singleton] at hc
    simp [hc]
  | cons a rest ih =>
    simp only [pyProduct, List.mem_flatMap, List.mem_map] at hc
    rcases hc with ⟨x, _, c', hc', rfl⟩
    simp [ih c' hc']

/-- C7. Every item of the batch carries exactly the base parameter names:
its `params` keys, in order, equal the keys of `base_params`. -/
theorem C7_batch_item_params_keys
    (base_params : List (String × ℚ)) (vars : List (String × VariableField))
    (it : BatchItem) (hit : it ∈ generate_batch base_params vars) :
    it.params.map Prod.fst = base_params.map Prod.fst := by
  unfold generate_batch at hit
  simp only [List.mem_map] at hit
  rcases hit with ⟨ic, hic, rfl⟩
  have hsnd : ic.2 ∈ pyProduct (value_lists base_params vars) :=
    List.snd_mem_of_mem_enum hic
  have hlen : ic.2.length = base_params.length := by
    rw [pyProduct_mem_length _ _ hsnd]
    simp [value_lists]
  apply List.map_fst_zip
  simp [hlen]

theorem rangeLoop_zero (mx st c : ℚ) : rangeLoop mx st 0 c = [] := rfl

theorem rangeLoop_succ (mx st : ℚ) (n : Nat) (c : ℚ) :
    rangeLoop mx st (n + 1) c
      = if c ≤ mx + rangeEps then pyRound10 c :: rangeLoop mx st n (c + st) else [] := rfl

theorem rangeLoop_length_le (mx st : ℚ) :
    ∀ (fuel : Nat) (c : ℚ), (rangeLoop mx st fuel c).length ≤ fuel := by
  intro fuel
  induction fuel with
  | zero => intro c; simp [rangeLoop_zero]
  | succ n ih =>
    intro c
    rw [rangeLoop_succ]
    by_cases h : c ≤ mx + rangeEps
    · rw [if_pos h]
      simpa using ih (c + st)
    · rw [if_neg h]
      simp

theorem rangeLoop_empty_of_gt (mx st c : ℚ) (h : ¬ c ≤ mx + rangeEps) (fuel : Nat) :
    rangeLoop mx st fuel c = [] := by
  cases fuel with
  | zero => rfl
  | succ n => rw [rangeLoop_succ, if_neg h]

/-- Exact length of the range loop under exact arithmetic: the loop emits
`⌊(max + ε - min)/step⌋ + 1` values (0 if even the first test fails),
clamped by the remaining fuel. -/
theorem rangeLoop_length (mx st : ℚ) (hst : 0 < st) :
    ∀ (fuel : Nat) (mn : ℚ),
      (rangeLoop mx st fuel mn).length
        = min fuel (if mn ≤ mx + rangeEps
            then (⌊(mx + rangeEps - mn) / st⌋.toNat + 1) else 0) := by
  intro fuel
  induction fuel with
  | zero => intro mn; simp [rangeLoop_zero]
  | succ n ih =>
    intro mn
    rw [rangeLoop_succ]
    by_cases h : mn ≤ mx + rangeEps
    · rw [if_pos h, if_pos h]
      simp only [List.length_cons, ih (mn + st)]
      have hD0 : (0:ℤ) ≤ ⌊(mx + rangeEps - mn) / st⌋ :=
        Int.floor_nonneg.mpr (div_nonneg (by linarith) hst.le)
      by_cases h2 : mn + st ≤ mx + rangeEps
      · rw [if_pos h2]
        have hne : st ≠ 0 := ne_of_gt hst
        have hdiv : (mx + rangeEps - (mn + st)) / st = (mx + rangeEps - mn) / st - 1 := by
          field_simp
          ring
        have hstep : ⌊(mx + rangeEps - (mn + st)) / st⌋ = ⌊(mx + rangeEps - mn) / st⌋ - 1 := by
          rw [hdiv, Int.floor_sub_one]
        have hD1 : (1:ℤ) ≤ ⌊(mx + rangeEps - mn) / st⌋ := by
          apply Int.le_floor.mpr
          rw [le_div_iff₀ hst]
          push_cast
          linarith
        rw [hstep]
        omega
      · rw [if_neg h2]
        have hD0' : ⌊(mx + rangeEps - mn) / st⌋ = 0 := by
          rw [Int.floor_eq_zero_iff]
          constructor
          · exact div_nonneg (by linarith) hst.le
          · rw [div_lt_one hst]
            linarith
        rw [hD0']
        omega
    · rw [if_neg h, if_neg h]
      simp

/-- Length of `generate_values` for an enabled non-discrete field with both
bounds present and a positive step. -/
theorem generate_values_range_length (f : VariableField) (mn mx : ℚ)
    (hE : f.enabled = true) (hM : f.mode ≠ "discrete")
    (hmin : f.min_value = some mn) (hmax : f.max_value = some mx)
    (hst : 0 < f.step) :
    f.generate_values.length
      = min 1000001 (if mn ≤ mx + rangeEps
          then (⌊(mx + rangeEps - mn) / f.step⌋.toNat + 1) else 0) := by
  unfold VariableField.generate_values
  rw [hE, hmin, hmax]
  simp only [Bool.not_true, Bool.false_eq_true, if_false, if_neg hM]
  rw [if_neg (not_le.mpr hst)]
  exact rangeLoop_length mx f.step hst 1000001 mn

/-- C3 (amended). An enabled Range-mode field generates at most 1_000_001
values (the break fires only after the 1_000_001st append). -/
theorem C3_amended_cap_is_1000001 (f : VariableField)
    (hE : f.enabled = true) (hM : f.mode = "range") :
    f.generate_values.length ≤ 1000001 := by
  unfold VariableField.generate_values
  rw [hE]
  simp only [Bool.not_true, Bool.false_eq_true, if_false]
  rw [if_neg (by rw [hM]; decide : ¬ f.mode = "discrete")]
  split
  · simp
  · simp
  · split
    · simp
    · exact rangeLoop_length_le _ f.step 1000001 _

/-- Witness for the amended C3 at a concrete enabled Range field. -/
def w3Field : VariableField :=
  { enabled := true, mode := "range", min_value := some 0,
    max_value := some 2, step := 1, values := [] }

theorem C3_witness_cap : w3Field.generate_values.length ≤ 1000001 :=
  C3_amended_cap_is_1000001 w3Field rfl rfl

/-- Range field sweeping 0..2_000_000 by 1: mathematically 2_000_001 values,
so the loop cap binds. -/
def c3Field : VariableField :=
  { enabled := true, mode := "range", min_value := some 0,
    max_value := some 2000000, step := 1, values := [] }

/-- C3 counterexample: an enabled Range-mode field whose `generate_values`
has 1_000_001 elements — strictly more than the claimed 1_000_000 cap. -/
theorem C3_counterexample_cap_exceeded :
    c3Field.enabled = true ∧ c3Field.mode = "range" ∧
      1000000 < c3Field.generate_values.length := by
  refine ⟨rfl, rfl, ?_⟩
  have h := generate_values_range_length c3Field 0 2000000 rfl (by decide) rfl rfl
    (by norm_num [c3Field])
  rw [h, if_pos (by norm_num [rangeEps] : (0:ℚ) ≤ 2000000 + rangeEps)]
  have hq : ((2000000:ℚ) + rangeEps - 0) / c3Field.step = 2000000 + rangeEps := by
    norm_num [c3Field]
  rw [hq]
  have hfloor : ⌊(2000000:ℚ) + rangeEps⌋ = 2000000 := by
    rw [Int.floor_eq_iff]
    norm_num [rangeEps]
  rw [hfloor]
  simp

/-- C4 (amended). For an enabled Range-mode field with both bounds present,
`min ≤ max` and `step > 0`, the value count is
`floor((max-min)/step + 1e-12/step) + 1` clamped to 1_000_001 (not 1_000_000:
the loop appends once more before its break fires). -/
theorem C4_amended_count_formula (f : VariableField) (mn mx : ℚ)
    (hE : f.enabled = true) (hM : f.mode = "range")
    (hmin : f.min_value = some mn) (hmax : f.max_value = some mx)
    (hle : mn ≤ mx) (hst : 0 < f.step) :
    f.generate_values.length
      = min (⌊(mx - mn) / f.step + rangeEps / f.step⌋.toNat + 1) 1000001 := by
  have hM' : f.mode ≠ "discrete" := by rw [hM]; decide
  rw [generate_values_range_length f mn mx hE hM' hmin hmax hst]
  have heps : (0:ℚ) < rangeEps := by norm_num [rangeEps]
  rw [if_pos (by linarith : mn ≤ mx + rangeEps)]
  have harg : mx - mn + rangeEps = mx + rangeEps - mn := by ring
  rw [div_add_div_same, harg, Nat.min_comm]

/-- Witness field for the amended C4: sweep 0..2 by 1. -/
def w4Field : VariableField :=
  { enabled := true, mode := "range", min_value := some 0,
    max_value := some 2, step := 1, values := [] }

theorem C4_witness_count_formula :
    w4Field.generate_values.length
      = min (⌊((2:ℚ) - 0) / w4Field.step + rangeEps / w4Field.step⌋.toNat + 1) 1000001 :=
  C4_amended_count_formula w4Field 0 2 rfl rfl rfl rfl (by norm_num)
    (by norm_num [w4Field])

/-- Range field sweeping 0..1_500_000 by 1: the claimed 1_000_000 clamp and
the actual 1_000_001 clamp differ. -/
def c4Field : VariableField :=
  { enabled := true, mode := "range", min_value := some 0,
    max_value := some 1500000, step := 1, values := [] }

/-- C4 counterexample: on `c4Field` the hypotheses of the claim hold, but the
value count differs from the claimed formula clamped at 1_000_000 (the code
produces 1_000_001 values). -/
theorem C4_counterexample_cap_off_by_one :
    c4Field.enabled = true ∧ c4Field.mode = "range" ∧
    c4Field.min_value = some 0 ∧ c4Field.max_value = some 1500000 ∧
    ((0:ℚ) ≤ 1500000) ∧ 0 < c4Field.step ∧
    c4Field.generate_values.length
      ≠ min (⌊((1500000:ℚ) - 0) / c4Field.step + rangeEps / c4Field.step⌋.toNat + 1)
          1000000 := by
  refine ⟨rfl, rfl, rfl, rfl, by norm_num, by norm_num [c4Field], ?_⟩
  have h := generate_values_range_length c4Field 0 1500000 rfl (by decide) rfl rfl
    (by norm_num [c4Field])
  rw [h, if_pos (by norm_num [rangeEps] : (0:ℚ) ≤ 1500000 + rangeEps)]
  have hstep : c4Field.step = 1 := rfl
  rw [hstep]
  have h1 : ((1500000:ℚ) + rangeEps - 0) / 1 = 1500000 + rangeEps := by norm_num
  have h2 : ((1500000:ℚ) - 0) / 1 + rangeEps / 1 = 1500000 + rangeEps := by norm_num
  rw [h1, h2]
  have hfloor : ⌊(1500000:ℚ) + rangeEps⌋ = 1500000 := by
    rw [Int.floor_eq_iff]
    norm_num [rangeEps]
  rw [hfloor]
  simp

/-- C5 (amended). `generate_values` is total (it cannot raise) and fails
closed: disabled fields, Range-mode fields with a missing bound or a
non-positive step, and Range-mode fields whose bounds are inverted by more
than the `1e-12` boundary tolerance all yield the empty list. (Bounds
inverted by at most `1e-12` still emit a value — see the counterexample.) -/
theorem C5_amended_fail_closed :
    (∀ f : VariableField, f.enabled = false → f.generate_values = [])
    ∧ (∀ f : VariableField, f.mode = "range" → f.min_value = none →
        f.generate_values = [])
    ∧ (∀ f : VariableField, f.mode = "range" → f.max_value = none →
        f.generate_values = [])
    ∧ (∀ f : VariableField, f.mode = "range" → f.step ≤ 0 →
        f.generate_values = [])
    ∧ (∀ (f : VariableField) (mn mx : ℚ), f.mode = "range" →
        f.min_value = some mn → f.max_value = some mx →
        mx + rangeEps < mn → f.generate_values = []) := by
  have hnotd : ∀ f : VariableField, f.mode = "range" → ¬ f.mode = "discrete" := by
    intro f h
    rw [h]
    decide
  refine ⟨?_, ?_, ?_, ?_, ?_⟩
  · intro f h
    unfold VariableField.generate_values
    rw [h]
    rfl
  · intro f hm hmin
    unfold VariableField.generate_values
    rcases hE : f.enabled
    · rfl
    · rw [if_neg (by simp), if_neg (hnotd f hm), hmin]
  · intro f hm hmax
    unfold VariableField.generate_values
    rcases hE : f.enabled
    · rfl
    · rw [if_neg (by simp), if_neg (hnotd f hm), hmax]
      split
      · rfl
      · rfl
      · simp_all
  · intro f hm hst
    unfold VariableField.generate_values
    rcases hE : f.enabled
    · rfl
    · rw [if_neg (by simp), if_neg (hnotd f hm)]
      split
      · rfl
      · rfl
      · rw [if_pos]
        exact hst
  · intro f mn mx hm hmin hmax hlt
    unfold VariableField.generate_values
    rcases hE : f.enabled
    · rfl
    · rw [if_neg (by simp), if_neg (hnotd f hm), hmin, hmax]
      simp only []
      split
      · rfl
      · exact rangeLoop_empty_of_gt mx f.step mn (not_le.mpr hlt) 1000001

def c5Disabled : VariableField :=
  { enabled := false, mode := "discrete", min_value := none,
    max_value := none, step := 1, values := [1, 2] }

def c5BadStep : VariableField :=
  { enabled := true, mode := "range", min_value := some 0,
    max_value := some 5, step := 0, values := [] }

def c5Inverted : VariableField :=
  { enabled := true, mode := "range", min_value := some 0,
    max_value := some (-1), step := 1, values := [] }

theorem C5_witness_fail_closed :
    c5Disabled.generate_values = [] ∧ c5BadStep.generate_values = []
      ∧ c5Inverted.generate_values = [] :=
  ⟨C5_amended_fail_closed.1 c5Disabled rfl,
   C5_amended_fail_closed.2.2.2.1 c5BadStep rfl (le_refl 0),
   C5_amended_fail_closed.2.2.2.2 c5Inverted 0 (-1) rfl rfl rfl
     (by norm_num [rangeEps])⟩

/-- Bounds inverted by less than the 1e-12 tolerance: min = 1e-13 > max = 0. -/
def invField : VariableField :=
  { enabled := true, mode := "range", min_value := some (1 / 10 ^ 13),
    max_value := some 0, step := 1, values := [] }

/-- C5 counterexample: an enabled Range-mode field with inverted bounds
(`min > max`) whose `generate_values` is nonetheless nonempty, because the
inversion is smaller than the `1e-12` boundary tolerance. -/
theorem C5_counterexample_inverted_within_eps :
    invField.enabled = true ∧ invField.mode = "range" ∧
    invField.min_value = some (1 / 10 ^ 13) ∧ invField.max_value = some 0 ∧
    ((0:ℚ) < 1 / 10 ^ 13) ∧ invField.generate_values ≠ [] := by
  refine ⟨rfl, rfl, rfl, rfl, by norm_num, ?_⟩
  have hgen : invField.generate_values = rangeLoop 0 1 1000001 (1 / 10 ^ 13) := by
    simp [VariableField.generate_values, invField]
  have hunfold : rangeLoop (0:ℚ) 1 1000001 (1 / 10 ^ 13)
      = pyRound10 (1 / 10 ^ 13) :: rangeLoop 0 1 1000000 (1 / 10 ^ 13 + 1) := by
    rw [show (1000001:Nat) = 1000000 + 1 from rfl, rangeLoop_succ,
      if_pos (by norm_num [rangeEps] : (1:ℚ) / 10 ^ 13 ≤ 0 + rangeEps)]
  rw [hgen, hunfold]
  exact List.cons_ne_nil _ _

/-- C6 (amended). `to_config_dict` always contains `enabled` and `mode`; in
Range mode it contains `min_value`/`max_value` only when the corresponding
bound is present, plus `step`; in any non-range mode it contains `values`.
(It is a pure function of the field, so it has no side effects.) -/
theorem C6_amended_config_keys (f : VariableField) :
    ("enabled", ConfigValue.boolVal f.enabled) ∈ f.to_config_dict
    ∧ ("mode", ConfigValue.strVal f.mode) ∈ f.to_config_dict
    ∧ (f.mode = "range" →
        f.to_config_dict.map Prod.fst
          = ["enabled", "mode"]
            ++ (match f.min_value with | some _ => ["min_value"] | none => [])
            ++ (match f.max_value with | some _ => ["max_value"] | none => [])
            ++ ["step"])
    ∧ (f.mode ≠ "range" →
        f.to_config_dict.map Prod.fst = ["enabled", "mode", "values"]) := by
  refine ⟨?_, ?_, ?_, ?_⟩
  · simp [VariableField.to_config_dict]
  · simp [VariableField.to_config_dict]
  · intro hm
    simp only [VariableField.to_config_dict, if_pos hm]
    rcases f.min_value with _ | mn
    · rcases f.max_value with _ | mx
      · simp
      · simp
    · rcases f.max_value with _ | mx
      · simp
      · simp
  · intro hm
    simp [VariableField.to_config_dict, if_neg hm]

def c6Full : VariableField :=
  { enabled := true, mode := "range", min_value := some 1,
    max_value := some 2, step := 3, values := [] }

theorem C6_witness_config_keys :
    c6Full.to_config_dict.map Prod.fst
      = ["enabled", "mode", "min_value", "max_value", "step"] :=
  (C6_amended_config_keys c6Full).2.2.1 rfl

/-- Range-mode field with `min_value` absent. -/
def c6NoMin : VariableField :=
  { enabled := true, mode := "range", min_value := none,
    max_value := some 1, step := 1, values := [] }

/-- C6 counterexample: a Range-mode field whose config dict has no
`min_value` key, contradicting the claim that Range mode always includes
`min_value`, `max_value` and `step`. -/
theorem C6_counterexample_missing_min_key :
    c6NoMin.mode = "range" ∧ "min_value" ∉ c6NoMin.to_config_dict.map Prod.fst := by
  constructor
  · rfl
  · simp [VariableField.to_config_dict, c6NoMin]

/-- A copy of `f` with its `mode` string replaced. -/
def setMode (f : VariableField) (m : String) : VariableField := { f with mode := m }

/-- C9 (amended). Mode dispatch is asymmetric between the two operations:
`generate_values` treats every mode other than the literal `"discrete"` as
Range, while `to_config_dict` treats every mode other than the literal
`"range"` as Discrete (it serializes `values`, not `min/max/step`). -/
theorem C9_amended_mode_dispatch :
    (∀ f : VariableField, f.mode ≠ "discrete" →
        f.generate_values = (setMode f "range").generate_values)
    ∧ (∀ f : VariableField, f.mode ≠ "range" →
        f.to_config_dict.map Prod.fst
          = (setMode f "discrete").to_config_dict.map Prod.fst) := by
  constructor
  · intro f hm
    rcases hE : f.enabled
    · simp [VariableField.generate_values, setMode, hE]
    · simp [VariableField.generate_values, setMode, hE, hm]
  · intro f hm
    simp [VariableField.to_config_dict, setMode, hm]

def c9WitnessField : VariableField :=
  { enabled := true, mode := "custom", min_value := some 0,
    max_value := some 2, step := 1, values := [7] }

theorem C9_witness_mode_dispatch :
    c9WitnessField.generate_values = (setMode c9WitnessField "range").generate_values
    ∧ c9WitnessField.to_config_dict.map Prod.fst
        = (setMode c9WitnessField "discrete").to_config_dict.map Prod.fst :=
  ⟨C9_amended_mode_dispatch.1 c9WitnessField (by decide),
   C9_amended_mode_dispatch.2 c9WitnessField (by decide)⟩

/-- Enabled field with the unknown mode string "custom". -/
def c9Field : VariableField :=
  { enabled := true, mode := "custom", min_value := some 0,
    max_value := some 2, step := 1, values := [5] }

/-- C9 counterexample: for an unknown mode, `to_config_dict` does NOT behave
as in Range mode — its key set differs from the same field with
`mode := "range"` (it carries `values` instead of `min/max/step`). -/
theorem C9_counterexample_config_not_range :
    c9Field.enabled = true ∧ c9Field.mode ≠ "discrete" ∧ c9Field.mode ≠ "range" ∧
    c9Field.to_config_dict.map Prod.fst
      ≠ (setMode c9Field "range").to_config_dict.map Prod.fst := by
  refine ⟨rfl, by decide, by decide, ?_⟩
  simp [VariableField.to_config_dict, setMode, c9Field]

def w7Base : List (String × ℚ) := [("x", 1)]

theorem C7_witness_params_keys :
    (BatchItem.mk 1 [("x", (1:ℚ))]).params.map Prod.fst = ["x"] :=
  C7_batch_item_params_keys w7Base [] (BatchItem.mk 1 [("x", (1:ℚ))])
    (by simp [generate_batch, w7Base, value_lists, pyProduct, List.enum, List.enumFrom])

/-- Python's `str.rstrip` whitespace set (the ASCII part; CPython also
strips some unicode spaces, which cannot occur in the lines this module
builds). -/
def pyIsSpace (c : Char) : Bool :=
  c = ' ' || c = '\t' || c = '\n' || c = '\r' || c = '\x0b' || c = '\x0c'

/-- `str.rstrip()`: drop trailing whitespace. -/
def pyRstrip (s : String) : String :=
  String.mk ((s.data.reverse.dropWhile pyIsSpace).reverse)

/-- `"\n".join(lines)`. -/
def joinNl : List String → String
  | [] => ""
  | [s] => s
  | s :: t :: rest => s ++ "\n" ++ joinNl (t :: rest)

def hexDigit (n : Nat) : Char :=
  if n < 10 then Char.ofNat (48 + n) else Char.ofNat (87 + n)

def hex4 (n : Nat) : String :=
  String.mk [hexDigit (n / 4096 % 16), hexDigit (n / 256 % 16),
    hexDigit (n / 16 % 16), hexDigit (n % 16)]

/-- `json.dumps` escaping of one character (default `ensure_ascii=True`;
astral codepoints, which CPython writes as surrogate pairs, are modelled as
a single `\u` escape — no claim depends on that corner). -/
def jsonEscapeChar (c : Char) : String :=
  if c = '"' then "\\\""
  else if c = '\\' then "\\\\"
  else if c = '\n' then "\\n"
  else if c = '\t' then "\\t"
  else if c = '\r' then "\\r"
  else if c = '\x08' then "\\b"
  else if c = '\x0c' then "\\f"
  else if c.toNat < 32 || c.toNat > 126 then "\\u" ++ hex4 c.toNat
  else String.mk [c]

/-- `json.dumps` on a string: quote and escape. -/
def jsonDumps (s : String) : String :=
  "\"" ++ String.join (s.data.map jsonEscapeChar) ++ "\""

/-- Python `str()` on a float. CPython prints the shortest round-tripping
decimal; under the exact-rational model we render the rational. No claim
constrains this rendering. -/
def pyStrFloat (q : ℚ) : String := toString q

/-- Python `str()` on a list of floats. -/
def pyStrFloatList (l : List ℚ) : String :=
  "[" ++ String.intercalate ", " (l.map pyStrFloat) ++ "]"

/-- `_format_toml_value` from `io_utils.py`: strings are json-quoted,
booleans render as `true`/`false`, everything else via `str()`. -/
def format_toml_value : ConfigValue → String
  | ConfigValue.strVal s => jsonDumps s
  | ConfigValue.boolVal b => if b then "true" else "false"
  | ConfigValue.numVal q => pyStrFloat q
  | ConfigValue.listVal l => pyStrFloatList l

/-- Python `sorted` over dict items: dict keys are unique, so tuple
comparison is comparison on the key — a stable sort by key. -/
def pySortedByKey {β : Type} (l : List (String × β)) : List (String × β) :=
  l.mergeSort (fun a b => decide (a.1 ≤ b.1))

/-- One `key = value` line. -/
def kvLine (k : String) (v : ConfigValue) : String :=
  k ++ " = " ++ format_toml_value v

/-- The line list built by `write_case_config_toml` (the pure part, before
joining and writing; the `lines.append` calls become list appends and the
per-variable `for` loop becomes a fold). -/
def write_case_config_lines (template_params : List (String × ℚ))
    (variables_section : List (String × List (String × ConfigValue)))
    (template_file : String) : List String :=
  let lines1 := ["[meta]",
    "template_file = " ++ format_toml_value (ConfigValue.strVal template_file), ""]
  let lines2 := lines1 ++ ["[template_params]"]
    ++ (pySortedByKey template_params).map
        (fun kv => kvLine kv.1 (ConfigValue.numVal kv.2))
    ++ [""]
  let lines3 := lines2 ++ ["[variables]", ""]
  (pySortedByKey variables_section).foldl
    (fun ls nc => ls ++ ("[variables." ++ nc.1 ++ "]")
      :: nc.2.map (fun kv => kvLine kv.1 kv.2) ++ [""])
    lines3

/-- The full text written by `write_case_config_toml`:
`"\n".join(lines).rstrip() + "\n"`. -/
def write_case_config_text (template_params : List (String × ℚ))
    (variables_section : List (String × List (String × ConfigValue)))
    (template_file : String) : String :=
  pyRstrip (joinNl (write_case_config_lines template_params variables_section
    template_file)) ++ "\n"

/-- Spec section 4.3: the metadata section (template file name). -/
def metaSectionLines (template_file : String) : List String :=
  ["[meta]", "template_file = " ++ format_toml_value (ConfigValue.strVal template_file)]

/-- Spec section 4.3: the resolved-parameters section, keys sorted
lexicographically. -/
def templateParamsSectionLines (template_params : List (String × ℚ)) : List String :=
  "[template_params]"
    :: (pySortedByKey template_params).map
        (fun kv => kvLine kv.1 (ConfigValue.numVal kv.2))

/-- Spec section 4.3: the variables-definition section — sub-sections sorted
lexicographically by parameter name, each sub-section's keys in declaration
order, a blank line after each sub-section. -/
def variablesSectionLines
    (variables_section : List (String × List (String × ConfigValue))) : List String :=
  "[variables]" :: ""
    :: (pySortedByKey variables_section).flatMap
        (fun nc => ("[variables." ++ nc.1 ++ "]")
          :: nc.2.map (fun kv => kvLine kv.1 kv.2) ++ [""])

theorem variables_fold_eq (vs : List (String × List (String × ConfigValue))) :
    ∀ init : List String,
      vs.foldl (fun ls nc => ls ++ ("[variables." ++ nc.1 ++ "]")
          :: nc.2.map (fun kv => kvLine kv.1 kv.2) ++ [""]) init
        = init ++ vs.flatMap (fun nc => ("[variables." ++ nc.1 ++ "]")
            :: nc.2.map (fun kv => kvLine kv.1 kv.2) ++ [""]) := by
  induction vs with
  | nil => intro init; simp
  | cons x l ih =>
    intro init
    rw [List.foldl_cons, ih]
    simp

/-- The source's sequential line building equals the three spec sections
separated by blank lines. -/
theorem write_case_config_lines_eq (template_params : List (String × ℚ))
    (variables_section : List (String × List (String × ConfigValue)))
    (template_file : String) :
    write_case_config_lines template_params variables_section template_file
      = metaSectionLines template_file ++ [""]
        ++ templateParamsSectionLines template_params ++ [""]
        ++ variablesSectionLines variables_section := by
  simp only [write_case_config_lines]
  rw [variables_fold_eq (pySortedByKey variables_section)]
  simp [metaSectionLines, templateParamsSectionLines, variablesSectionLines]

theorem pySortedByKey_sorted {β : Type} (l : List (String × β)) :
    List.Sorted (fun a b : String × β => a.1 ≤ b.1) (pySortedByKey l) := by
  unfold pySortedByKey
  refine List.Pairwise.imp ?_ (List.sorted_mergeSort ?_ ?_ l)
  · intro a b h
    exact of_decide_eq_true h
  · intro a b c hab hbc
    exact decide_eq_true (le_trans (of_decide_eq_true hab) (of_decide_eq_true hbc))
  · intro a b
    rcases le_total a.1 b.1 with h | h
    · simp [h]
    · simp [h]

theorem pySortedByKey_perm {β : Type} (l : List (String × β)) :
    (pySortedByKey l).Perm l :=
  List.mergeSort_perm l _

/-- C8. The manifest line list is exactly three sections in fixed order —
metadata, resolved parameters, variable definitions — separated by blank
lines, with bracket headers and one `key = value` line per entry (string
values json-quoted, booleans as `true`/`false` via `format_toml_value`);
the resolved-parameter keys and the per-parameter sub-sections are sorted
lexicographically (each sub-section's own keys stay in declaration order),
and the sorts are permutations of the inputs. -/
theorem C8_serialize_sections (template_params : List (String × ℚ))
    (variables_section : List (String × List (String × ConfigValue)))
    (template_file : String) :
    (write_case_config_lines template_params variables_section template_file
      = metaSectionLines template_file ++ [""]
        ++ templateParamsSectionLines template_params ++ [""]
        ++ variablesSectionLines variables_section)
    ∧ List.Sorted (fun a b => a.1 ≤ b.1) (pySortedByKey template_params)
    ∧ (pySortedByKey template_params).Perm template_params
    ∧ List.Sorted (fun a b => a.1 ≤ b.1) (pySortedByKey variables_section)
    ∧ (pySortedByKey variables_section).Perm variables_section :=
  ⟨write_case_config_lines_eq template_params variables_section template_file,
   pySortedByKey_sorted template_params, pySortedByKey_perm template_params,
   pySortedByKey_sorted variables_section, pySortedByKey_perm variables_section⟩

theorem joinNl_data_cons (s : String) (rest : List String) :
    ∃ t : List Char, (joinNl (s :: rest)).data = s.data ++ t := by
  cases rest with
  | nil =>
    refine ⟨[], ?_⟩
    simp [joinNl]
  | cons t r =>
    refine ⟨'\n' :: (joinNl (t :: r)).data, ?_⟩
    show ((s ++ "\n") ++ joinNl (t :: r)).data = s.data ++ ('\n' :: (joinNl (t :: r)).data)
    rw [String.data_append, String.data_append]
    simp

theorem dropWhile_head_pred_false {α : Type} (p : α → Bool) :
    ∀ (l : List α) (c : α) (r : List α), l.dropWhile p = c :: r → p c = false := by
  intro l
  induction l with
  | nil => intro c r h; simp [List.dropWhile] at h
  | cons x xs ih =>
    intro c r h
    rw [List.dropWhile_cons] at h
    by_cases hx : p x = true
    · rw [if_pos hx] at h
      exact ih c r h
    · rw [if_neg hx] at h
      injection h with h1 h2
      rw [← h1]
      simpa using hx

/-- C10. The serialized manifest text ends in exactly one newline and has no
trailing blank line: it is some prefix, then a final non-whitespace
character, then the single `'\n'` appended after the `rstrip`. -/
theorem C10_single_trailing_newline (template_params : List (String × ℚ))
    (variables_section : List (String × List (String × ConfigValue)))
    (template_file : String) :
    ∃ (l : List Char) (c : Char), pyIsSpace c = false ∧
      (write_case_config_text template_params variables_section template_file).data
        = l ++ [c, '\n'] := by
  obtain ⟨rest, hrest⟩ : ∃ rest, write_case_config_lines template_params
      variables_section template_file = "[meta]" :: rest := by
    rw [write_case_config_lines_eq]
    exact ⟨_, rfl⟩
  unfold write_case_config_text
  set J := joinNl (write_case_config_lines template_params variables_section
    template_file) with hJ
  have hmem : '[' ∈ J.data := by
    rw [hJ, hrest]
    obtain ⟨t, ht⟩ := joinNl_data_cons "[meta]" rest
    rw [ht]
    exact List.mem_append.mpr (Or.inl (by decide))
  have hne : J.data.reverse.dropWhile pyIsSpace ≠ [] := by
    intro h0
    rw [List.dropWhile_eq_nil_iff] at h0
    have h1 := h0 '[' (List.mem_reverse.mpr hmem)
    exact absurd h1 (by decide)
  obtain ⟨c, r', hr'⟩ := List.exists_cons_of_ne_nil hne
  have hc : pyIsSpace c = false :=
    dropWhile_head_pred_false pyIsSpace J.data.reverse c r' hr'
  refine ⟨r'.reverse, c, hc, ?_⟩
  rw [String.data_append]
  have hdata : (pyRstrip J).data = (J.data.reverse.dropWhile pyIsSpace).reverse := rfl
  rw [hdata, hr']
  rw [show ("\n" : String).data = ['\n'] from rfl]
  simp
